import Mathlib

/-!
Shallow embedding of the raster-editing core of the asset editor
(single Svelte source file): layer stack, history (undo/redo),
flood fill, lasso masks, floating selections, alpha blending and
display compositing.  Definitions mirror the source functions;
canvas 2D contexts are modelled by explicit pixel lists
(`ctx.getImageData(0,0,W,H)` / `ctx.putImageData(img,0,0)` become
reading / replacing a layer's whole buffer).
-/

namespace AssetEditor

/-- RGBA color record `{r,g,b,a}`, each channel a byte value 0–255. -/
structure Color where
  r : ℕ
  g : ℕ
  b : ℕ
  a : ℕ
deriving DecidableEq, Repr

/-- Source `colorsMatch(c1, c2, tolerance)`:
`|c1.r-c2.r| <= tolerance && ... && |c1.a-c2.a| <= tolerance`.
All call sites use the default `tolerance = 0`. -/
def colorsMatch (c1 c2 : Color) (tolerance : ℕ) : Bool :=
  ((c1.r : ℤ) - c2.r).natAbs ≤ tolerance &&
  ((c1.g : ℤ) - c2.g).natAbs ≤ tolerance &&
  ((c1.b : ℤ) - c2.b).natAbs ≤ tolerance &&
  ((c1.a : ℤ) - c2.a).natAbs ≤ tolerance

/-- An `ImageData` buffer: row-major pixel list, index `y*W + x`
(the source's flat byte array index `(y*W + x)*4` grouped per pixel). -/
def Img : Type := List Color

instance : DecidableEq Img := by
  unfold Img
  infer_instance

/-- Source `getPixelColor(imageData, x, y)`: read the pixel at flat index
`y*width + x` (callers bound-check `x,y` first; an out-of-range read is
given the transparent color). -/
def getPixelColor (img : Img) (W : ℕ) (x y : ℤ) : Color :=
  List.getD img (y * W + x).toNat ⟨0, 0, 0, 0⟩

/-- Source `setPixelColor(imageData, x, y, color)`: write the pixel at
flat index `y*width + x` (out-of-range writes are dropped, as for a
typed array). -/
def setPixelColor (img : Img) (W : ℕ) (x y : ℤ) (c : Color) : Img :=
  List.set img (y * W + x).toNat c

/-- Source `Layer`: stable `id`, display `name`, the layer's canvas
content (its full `ImageData`) and a visibility flag. -/
structure Layer where
  id : String
  name : String
  img : Img
  visible : Bool
deriving DecidableEq

/-- Source `HistoryState`: per-layer `(id, imageData)` snapshots plus the
active layer index at capture time. -/
structure HistoryState where
  layerStates : List (String × Img)
  activeLayerIndex : ℤ
deriving DecidableEq

/-- Bounding box `{minX, minY, maxX, maxY}` of a lasso selection. -/
structure LassoBounds where
  minX : ℤ
  minY : ℤ
  maxX : ℤ
  maxY : ℤ
deriving DecidableEq

/-- The boolean lasso mask `lassoMask[y][x]`, a row list per canvas row. -/
def Mask : Type := List (List Bool)

instance : DecidableEq Mask := by
  unfold Mask
  infer_instance

/-- An owned RGBA snapshot (`ImageData` with its own dimensions), as used
for `lassoImageData` and floating-selection pixel data. -/
structure FloatImg where
  width : ℕ
  height : ℕ
  data : Img
deriving DecidableEq

/-- Source `floatingSelection`: owned pixel data plus its top-left
canvas placement. -/
structure Floating where
  imageData : FloatImg
  x : ℤ
  y : ℤ
deriving DecidableEq

/-- The mutable module-level editor state: the layer stack with the
active index, both history stacks, and the lasso / floating-selection
state. -/
structure EditorState where
  layers : List Layer
  activeLayerIndex : ℤ
  undoStack : List HistoryState
  redoStack : List HistoryState
  lassoPoints : List (ℤ × ℤ)
  lassoMask : Option Mask
  lassoBounds : Option LassoBounds
  lassoImageData : Option FloatImg
  floatingSelection : Option Floating
deriving DecidableEq

/-- Source `MAX_UNDO_STEPS`. -/
def MAX_UNDO_STEPS : ℕ := 50

/-- The repeated snapshot expression
`layers.map(layer => ({id: layer.id, imageData: layer.ctx.getImageData(...)}))`
together with the current `activeLayerIndex`, as built inside
`saveState`, `undo` and `redo`. -/
def currentSnapshot (s : EditorState) : HistoryState :=
  ⟨s.layers.map fun l => (l.id, l.img), s.activeLayerIndex⟩

/-- Source `saveState()`: no-op on an empty layer list, otherwise append
a snapshot to the undo stack keeping only the last `MAX_UNDO_STEPS - 1`
prior entries (`undoStack.slice(-(MAX_UNDO_STEPS - 1))`), and clear the
redo stack. -/
def saveState (s : EditorState) : EditorState :=
  if s.layers.isEmpty then s
  else
    { s with
      undoStack :=
        (s.undoStack.drop (s.undoStack.length - (MAX_UNDO_STEPS - 1))) ++
          [currentSnapshot s]
      redoStack := [] }

/-- `layers.find(l => l.id === id)` followed by
`layer.ctx.putImageData(imageData, 0, 0)`: replace the buffer of the
first layer whose id matches; leave everything else alone. -/
def putOnFirstMatch : List Layer → String → Img → List Layer
  | [], _, _ => []
  | l :: rest, i, img =>
      if l.id = i then { l with img := img } :: rest
      else l :: putOnFirstMatch rest i img

/-- The restore loop of `undo` / `redo`: for each saved
`(id, imageData)` pair, write the saved buffer into the first live
layer with that id (ids absent from the live list are skipped). -/
def restoreLayerStates (states : List (String × Img)) (layers : List Layer) :
    List Layer :=
  states.foldl (fun ls p => putOnFirstMatch ls p.1 p.2) layers

/-- Source `undo()`: no-op when the undo stack or the layer list is
empty; otherwise push a snapshot of the current state onto the redo
stack, pop the most recent undo entry, restore each saved layer buffer
by id, and restore the saved active index.  (`compositeAndRender` only
refreshes the display and is not part of this state.) -/
def undo (s : EditorState) : EditorState :=
  if s.undoStack.isEmpty || s.layers.isEmpty then s
  else
    let previousState := s.undoStack.getLast?.getD ⟨[], 0⟩
    { s with
      redoStack := s.redoStack ++ [currentSnapshot s]
      undoStack := s.undoStack.dropLast
      layers := restoreLayerStates previousState.layerStates s.layers
      activeLayerIndex := previousState.activeLayerIndex }

/-- Source `redo()`: symmetric to `undo`. -/
def redo (s : EditorState) : EditorState :=
  if s.redoStack.isEmpty || s.layers.isEmpty then s
  else
    let nextState := s.redoStack.getLast?.getD ⟨[], 0⟩
    { s with
      undoStack := s.undoStack ++ [currentSnapshot s]
      redoStack := s.redoStack.dropLast
      layers := restoreLayerStates nextState.layerStates s.layers
      activeLayerIndex := nextState.activeLayerIndex }

/-- Source `addLayer()`: splice the freshly created layer in directly
above the active layer and make it active.  The new layer itself
(`createLayer()`: a fresh id, default name, empty buffer, visible) is
passed in explicitly since its id is generated from the clock. -/
def addLayer (newLayer : Layer) (s : EditorState) : EditorState :=
  { s with
    layers := s.layers.insertIdx (s.activeLayerIndex + 1).toNat newLayer
    activeLayerIndex := s.activeLayerIndex + 1 }

/-- Source `removeLayer(index)`: rejected while only one layer remains;
otherwise drop the layer at `index`
(`layers.filter((_, i) => i !== index)`), then clamp the active index to
the new last slot if it points past the end, or shift it down by one if
it points above the removed slot. -/
def removeLayer (index : ℤ) (s : EditorState) : EditorState :=
  if s.layers.length ≤ 1 then s
  else
    let newLayers :=
      ((s.layers.enum.filter fun p => ¬((p.1 : ℤ) = index)).map Prod.snd)
    let newActive : ℤ :=
      if s.activeLayerIndex ≥ newLayers.length then
        (newLayers.length : ℤ) - 1
      else if s.activeLayerIndex > index then s.activeLayerIndex - 1
      else s.activeLayerIndex
    { s with layers := newLayers, activeLayerIndex := newActive }

/-- Source `moveLayer(fromIndex, toIndex)`: early return when the
indices coincide or either is out of range; otherwise splice the layer
out of `fromIndex`, splice it back in at `toIndex`, and re-derive the
active index (follow the moved layer, or shift by one when the move
straddles the active slot). -/
def moveLayer (fromIndex toIndex : ℤ) (s : EditorState) : EditorState :=
  if fromIndex = toIndex then s
  else if fromIndex < 0 ∨ fromIndex ≥ s.layers.length then s
  else if toIndex < 0 ∨ toIndex ≥ s.layers.length then s
  else
    let movedLayer := s.layers.getD fromIndex.toNat ⟨"", "", [], true⟩
    let newLayers :=
      (s.layers.eraseIdx fromIndex.toNat).insertIdx toIndex.toNat movedLayer
    let newActive : ℤ :=
      if s.activeLayerIndex = fromIndex then toIndex
      else if fromIndex < s.activeLayerIndex ∧ toIndex ≥ s.activeLayerIndex then
        s.activeLayerIndex - 1
      else if fromIndex > s.activeLayerIndex ∧ toIndex ≤ s.activeLayerIndex then
        s.activeLayerIndex + 1
      else s.activeLayerIndex
    { s with layers := newLayers, activeLayerIndex := newActive }

/-- The derived `activeCtx = layers[activeLayerIndex]?.ctx ?? null`:
the active layer's buffer, or `none` when the index misses the list. -/
def activeImg? (s : EditorState) : Option Img :=
  if 0 ≤ s.activeLayerIndex then
    (s.layers[s.activeLayerIndex.toNat]?).map Layer.img
  else none

/-- `activeCtx.putImageData(imageData, 0, 0)`: replace the active
layer's whole buffer. -/
def setActiveImg (s : EditorState) (img : Img) : EditorState :=
  if 0 ≤ s.activeLayerIndex then
    match s.layers[s.activeLayerIndex.toNat]? with
    | some l =>
        { s with
          layers := s.layers.set s.activeLayerIndex.toNat { l with img := img } }
    | none => s
  else s

/-- The in-bounds pixel coordinates of a `W×H` canvas, as a finite set
(used only to measure the flood-fill loop). -/
def boxF (W H : ℕ) : Finset (ℤ × ℤ) :=
  Finset.Icc 0 ((W : ℤ) - 1) ×ˢ Finset.Icc 0 ((H : ℤ) - 1)

/-- The `while (stack.length > 0)` loop of `floodFill`: pop a
coordinate; skip it when already visited, out of bounds, or not exactly
the seed's original color; otherwise mark it visited, overwrite it with
the fill color and push its four 4-connected neighbours.  The list head
is the top of the JS array stack, so the neighbours appear in reverse
push order. -/
def floodLoop (W H : ℕ) (targetColor fillColor : Color) :
    List (ℤ × ℤ) → Finset (ℤ × ℤ) → Img → Img
  | [], _, img => img
  | (x, y) :: rest, visited, img =>
    if (x, y) ∈ visited then
      floodLoop W H targetColor fillColor rest visited img
    else if x < 0 ∨ x ≥ (W : ℤ) ∨ y < 0 ∨ y ≥ (H : ℤ) then
      floodLoop W H targetColor fillColor rest visited img
    else if ¬ colorsMatch (getPixelColor img W x y) targetColor 0 then
      floodLoop W H targetColor fillColor rest visited img
    else
      floodLoop W H targetColor fillColor
        ((x, y - 1) :: (x, y + 1) :: (x - 1, y) :: (x + 1, y) :: rest)
        (insert (x, y) visited)
        (setPixelColor img W x y fillColor)
  termination_by stack visited _ => 5 * ((boxF W H) \ visited).card + stack.length
  decreasing_by
  · simp only [List.length_cons]
    omega
  · simp only [List.length_cons]
    omega
  · simp only [List.length_cons]
    omega
  · rename_i hvis hbounds _
    have hxy : (x, y) ∈ boxF W H \ visited := by
      rw [Finset.mem_sdiff]
      push_neg at hbounds
      refine ⟨?_, hvis⟩
      simp only [boxF, Finset.mem_product, Finset.mem_Icc]
      exact ⟨⟨hbounds.1, by omega⟩, hbounds.2.2.1, by omega⟩
    have hcard : (boxF W H \ insert (x, y) visited).card <
        (boxF W H \ visited).card := by
      apply Finset.card_lt_card
      rw [Finset.ssubset_iff_of_subset
        (Finset.sdiff_subset_sdiff (le_refl _) (Finset.subset_insert _ _))]
      exact ⟨(x, y), hxy, by simp⟩
    simp only [List.length_cons]
    omega

/-- Fuel-indexed version of the flood-fill loop: one unit of fuel per
loop iteration, `none` when the fuel runs out before the stack
empties. -/
def floodLoopFuel (W H : ℕ) (targetColor fillColor : Color) :
    ℕ → List (ℤ × ℤ) → Finset (ℤ × ℤ) → Img → Option Img
  | 0, _, _, _ => none
  | _ + 1, [], _, img => some img
  | fuel + 1, (x, y) :: rest, visited, img =>
    if (x, y) ∈ visited then
      floodLoopFuel W H targetColor fillColor fuel rest visited img
    else if x < 0 ∨ x ≥ (W : ℤ) ∨ y < 0 ∨ y ≥ (H : ℤ) then
      floodLoopFuel W H targetColor fillColor fuel rest visited img
    else if ¬ colorsMatch (getPixelColor img W x y) targetColor 0 then
      floodLoopFuel W H targetColor fillColor fuel rest visited img
    else
      floodLoopFuel W H targetColor fillColor fuel
        ((x, y - 1) :: (x, y + 1) :: (x - 1, y) :: (x + 1, y) :: rest)
        (insert (x, y) visited)
        (setPixelColor img W x y fillColor)

/-- Source `floodFill(startX, startY)`: bail out without an active
context or with an out-of-bounds seed; call `saveState()`; read the
seed's exact color; return (after the snapshot was already pushed) when
it equals the paint color; otherwise run the iterative stack loop and
write the result back to the active layer.  The paint color
(`hexToRgba(paintColor, paintOpacity)`) is passed in as `fillColor`;
`saveState` leaves every layer buffer untouched, so the image read
after it equals the one read before. -/
def floodFill (W H : ℕ) (fillColor : Color) (startX startY : ℤ)
    (s : EditorState) : EditorState :=
  match activeImg? s with
  | none => s
  | some img =>
    if startX < 0 ∨ startX ≥ (W : ℤ) ∨ startY < 0 ∨ startY ≥ (H : ℤ) then s
    else
      let s₁ := saveState s
      let targetColor := getPixelColor img W startX startY
      if colorsMatch targetColor fillColor 0 then s₁
      else
        setActiveImg s₁
          (floodLoop W H targetColor fillColor [(startX, startY)] ∅ img)

/-- The source's x-crossing test `x < (xj - xi) * (y - yi) / (yj - yi) + xi`
evaluated exactly: both sides are multiplied by the denominator
`yj - yi` (reversing the inequality when it is negative).  The even-odd
guard only evaluates this with `yj ≠ yi`; for the integer coordinates
involved the source's double-precision quotient is far closer to the
exact value than to any other integer, so the comparisons agree
(`crossingLt_iff_ratFormula` below relates this test to the formula
written with rational division). -/
def crossingLt (x y xi yi xj yj : ℤ) : Bool :=
  let d := yj - yi
  if 0 < d then (x - xi) * d < (xj - xi) * (y - yi)
  else (xj - xi) * (y - yi) < (x - xi) * d

/-- Source `pointInPolygon(x, y, polygon)`: even-odd ray casting.  Edge
`i` joins vertex `i` to vertex `j` (`j = i - 1`, wrapping to the last
vertex for `i = 0`); inclusion toggles when
`(yi > y) != (yj > y) && x < (xj-xi)*(y-yi)/(yj-yi) + xi`. -/
def pointInPolygon (x y : ℤ) (polygon : List (ℤ × ℤ)) : Bool :=
  let n := polygon.length
  (List.range n).foldl
    (fun inside i =>
      let p := polygon.getD i (0, 0)
      let q := polygon.getD ((i + n - 1) % n) (0, 0)
      if (decide (p.2 > y) != decide (q.2 > y)) &&
          crossingLt x y p.1 p.2 q.1 q.2 then
        !inside
      else inside)
    false

/-- JS `Math.min` on integers. -/
def jsMin (a b : ℤ) : ℤ := if a ≤ b then a else b

/-- JS `Math.max` on integers. -/
def jsMax (a b : ℤ) : ℤ := if b ≤ a then a else b

/-- Source `createLassoMask()`: nothing happens with fewer than three
points; otherwise compute the polygon's bounding box (seeded with the
canvas dimensions / zero exactly as in the source), clamp it to the
canvas, and build the full-canvas boolean grid `mask[y][x]`, true
exactly on in-box pixels passing `pointInPolygon`. -/
def createLassoMask (W H : ℕ) (lassoPoints : List (ℤ × ℤ)) :
    Option (LassoBounds × Mask) :=
  if lassoPoints.length < 3 then none
  else
    let minX0 := lassoPoints.foldl (fun m p => jsMin m p.1) (W : ℤ)
    let minY0 := lassoPoints.foldl (fun m p => jsMin m p.2) (H : ℤ)
    let maxX0 := lassoPoints.foldl (fun m p => jsMax m p.1) 0
    let maxY0 := lassoPoints.foldl (fun m p => jsMax m p.2) 0
    let minX := jsMax 0 minX0
    let minY := jsMax 0 minY0
    let maxX := jsMin ((W : ℤ) - 1) maxX0
    let maxY := jsMin ((H : ℤ) - 1) maxY0
    let mask : Mask :=
      (List.range H).map fun y : ℕ =>
        (List.range W).map fun x : ℕ =>
          if minX ≤ (x : ℤ) ∧ (x : ℤ) ≤ maxX ∧ minY ≤ (y : ℤ) ∧ (y : ℤ) ≤ maxY
          then pointInPolygon (x : ℤ) (y : ℤ) lassoPoints
          else false
    some (⟨minX, minY, maxX, maxY⟩, mask)

/-- The JS access `lassoMask[y] && lassoMask[y][x]` (out-of-range rows
or columns read as false). -/
def maskGet (m : Mask) (x y : ℤ) : Bool :=
  if 0 ≤ x ∧ 0 ≤ y then (m.getD y.toNat []).getD x.toNat false else false

/-- The clearing loop shared by the lasso cut / delete / move-to-floating
operations: zero out (fully transparent) every mask-true pixel of the
bounding box on the given full-canvas buffer. -/
def clearMasked (W : ℕ) (mask : Mask) (b : LassoBounds) (img : Img) : Img :=
  (List.range (b.maxY - b.minY + 1).toNat).foldl
    (fun im dy =>
      (List.range (b.maxX - b.minX + 1).toNat).foldl
        (fun im2 dx =>
          let x := b.minX + dx
          let y := b.minY + dy
          if maskGet mask x y then setPixelColor im2 W x y ⟨0, 0, 0, 0⟩
          else im2)
        im)
    img

/-- Source `moveLassoToFloating()`: bail out unless the active context,
mask, bounds and extracted image data are all present; `saveState()`;
zero the mask-true pixels on the active layer; create the floating
selection at the bounding box's top-left from a copy of the extracted
(pre-cut) pixels; then null out `lassoMask`, `lassoImageData` and
`lassoBounds` — the source keeps `lassoPoints` (its comment:
clear lasso state but keep points for reference). -/
def moveLassoToFloating (W : ℕ) (s : EditorState) : EditorState :=
  match activeImg? s, s.lassoMask, s.lassoBounds, s.lassoImageData with
  | some img, some mask, some b, some fid =>
      let s₁ := saveState s
      let s₂ := setActiveImg s₁ (clearMasked W mask b img)
      { s₂ with
        floatingSelection := some ⟨⟨fid.width, fid.height, fid.data⟩, b.minX, b.minY⟩
        lassoMask := none
        lassoImageData := none
        lassoBounds := none }
  | _, _, _, _ => s

/-- JS `Math.round` on the non-negative values produced by the blend
formula: round half away from zero, i.e. `⌊q + 1/2⌋`. -/
def jsRound (q : ℚ) : ℤ := ⌊q + 1 / 2⌋

/-- Storing into a `Uint8ClampedArray` slot: clamp to `[0, 255]`. -/
def clampByte (z : ℤ) : ℕ := (min 255 (max 0 z)).toNat

/-- Source `blendPixel(imageData, x, y, color)` as a pure function of
the destination pixel and the source color: Porter-Duff "over" with
`srcAlpha = color.a/255`, `dstAlpha = data[i+3]/255`,
`outAlpha = srcAlpha + dstAlpha*(1 - srcAlpha)`; nothing is written when
`outAlpha = 0`. -/
def blendPixel (dst src : Color) : Color :=
  let srcAlpha : ℚ := src.a / 255
  let dstAlpha : ℚ := dst.a / 255
  let outAlpha : ℚ := srcAlpha + dstAlpha * (1 - srcAlpha)
  if 0 < outAlpha then
    ⟨clampByte (jsRound ((src.r * srcAlpha + dst.r * dstAlpha * (1 - srcAlpha)) / outAlpha)),
     clampByte (jsRound ((src.g * srcAlpha + dst.g * dstAlpha * (1 - srcAlpha)) / outAlpha)),
     clampByte (jsRound ((src.b * srcAlpha + dst.b * dstAlpha * (1 - srcAlpha)) / outAlpha)),
     clampByte (jsRound (outAlpha * 255))⟩
  else dst

/-- A display pixel in the canvas's internal premultiplied-alpha form,
with exact rational channels in `[0, 1]`. -/
structure PMColor where
  r : ℚ
  g : ℚ
  b : ℚ
  a : ℚ
deriving DecidableEq

/-- A stored RGBA byte pixel as the premultiplied color it denotes. -/
def toPM (c : Color) : PMColor :=
  ⟨c.r * c.a / (255 * 255), c.g * c.a / (255 * 255),
   c.b * c.a / (255 * 255), c.a / 255⟩

/-- `ctx.drawImage` per-pixel semantics under the default
`globalCompositeOperation` (source-over, premultiplied):
`out = src + dst·(1 − src.a)` in every channel. -/
def sourceOver (dst src : PMColor) : PMColor :=
  ⟨src.r + dst.r * (1 - src.a), src.g + dst.g * (1 - src.a),
   src.b + dst.b * (1 - src.a), src.a + dst.a * (1 - src.a)⟩

/-- `ctx.clearRect` leaves transparent black. -/
def clearPixel : PMColor := ⟨0, 0, 0, 0⟩

/-- Source `compositeAndRender()` observed at one display pixel: clear
the display canvas, then `ctx.drawImage(layer.canvas, 0, 0)` for each
visible layer in stack order (back to front). -/
def compositePixel (W : ℕ) (layers : List Layer) (x y : ℤ) : PMColor :=
  layers.foldl
    (fun d l =>
      if l.visible then sourceOver d (toPM (getPixelColor l.img W x y)) else d)
    clearPixel

/-- The topmost (last-drawn) visible layer of the stack, if any. -/
def topmostVisible (layers : List Layer) : Option Layer :=
  (layers.filter fun l => l.visible).getLast?

/-- Opaque red, the example paint color. -/
def redC : Color := ⟨255, 0, 0, 255⟩

/-- Fully transparent black, the content of an empty canvas pixel. -/
def clearColor : Color := ⟨0, 0, 0, 0⟩

/-- Example state: a single layer on a 1×1 canvas already painted the
paint color, empty history. -/
def exFillState : EditorState :=
  ⟨[⟨"a", "Layer 1", [redC], true⟩], 0, [], [], [], none, none, none, none⟩

/-- Example state: one layer on a 1×1 canvas with one undo entry. -/
def exHistoryState : EditorState :=
  ⟨[⟨"a", "Layer 1", [redC], true⟩], 0, [⟨[("a", [clearColor])], 0⟩], [],
   [], none, none, none, none⟩

/-- Example state: three layers, the top one active. -/
def exThreeLayers : EditorState :=
  ⟨[⟨"a", "Layer 1", [redC], true⟩, ⟨"b", "Layer 2", [clearColor], true⟩,
    ⟨"c", "Layer 3", [clearColor], false⟩], 2, [], [], [], none, none, none,
   none⟩

/-- Example layer: opaque red bottom layer of a 1×1 canvas. -/
def exBottomLayer : Layer := ⟨"a", "bottom", [redC], true⟩

/-- Example layer: fully transparent top layer of a 1×1 canvas. -/
def exTopLayer : Layer := ⟨"b", "top", [clearColor], true⟩

/-- Example state: a finalized single-pixel lasso selection on a 2×2
canvas (mask true only at the origin), with extracted pixel data. -/
def exLassoState : EditorState :=
  ⟨[⟨"a", "Layer 1", [redC, redC, redC, redC], true⟩], 0, [], [],
   [(0, 0), (2, 0), (0, 2)],
   some [[true, false], [false, false]],
   some ⟨0, 0, 0, 0⟩,
   some ⟨1, 1, [redC]⟩,
   none⟩

end AssetEditor

namespace AssetEditor

theorem jsRound_natCast (n : ℕ) : jsRound (n : ℚ) = (n : ℤ) := by
  unfold jsRound
  rw [Int.floor_eq_iff]
  constructor
  · push_cast
    linarith
  · push_cast
    linarith

theorem clampByte_natCast (n : ℕ) (h : n ≤ 255) : clampByte (n : ℤ) = n := by
  unfold clampByte
  have h0 : max 0 (n : ℤ) = (n : ℤ) := by omega
  have h1 : min 255 (n : ℤ) = (n : ℤ) := by omega
  rw [h0, h1]
  exact Int.toNat_natCast n

/-- C8: the Porter-Duff over blend `blendPixel` satisfies both boundary
identities: a fully opaque source replaces the destination exactly, and
a fully transparent source leaves the destination unchanged, channel for
channel. -/
theorem blendPixel_opaque_and_transparent (dst src : Color)
    (hsr : src.r ≤ 255) (hsg : src.g ≤ 255) (hsb : src.b ≤ 255)
    (hdr : dst.r ≤ 255) (hdg : dst.g ≤ 255) (hdb : dst.b ≤ 255)
    (hda : dst.a ≤ 255) :
    (src.a = 255 → blendPixel dst src = src) ∧
    (src.a = 0 → blendPixel dst src = dst) := by
  constructor
  · intro ha
    unfold blendPixel
    rw [ha]
    have h255 : ((255 : ℕ) : ℚ) / 255 = 1 := by norm_num
    simp only [h255]
    rw [if_pos (by norm_num)]
    have hsimp : ∀ c d : ℕ, ((c : ℚ) * 1 + (d : ℚ) * ((dst.a : ℚ) / 255) * (1 - 1)) /
        (1 + (dst.a : ℚ) / 255 * (1 - 1)) = (c : ℚ) := by
      intro c d
      ring_nf
    rw [hsimp src.r dst.r, hsimp src.g dst.g, hsimp src.b dst.b]
    have hout : ((1 : ℚ) + (dst.a : ℚ) / 255 * (1 - 1)) * 255 = ((255 : ℕ) : ℚ) := by
      push_cast
      ring
    rw [hout]
    rw [jsRound_natCast, jsRound_natCast, jsRound_natCast, jsRound_natCast]
    rw [clampByte_natCast _ hsr, clampByte_natCast _ hsg,
      clampByte_natCast _ hsb, clampByte_natCast _ (le_refl 255), ← ha]
  · intro ha
    unfold blendPixel
    rw [ha]
    by_cases hd : dst.a = 0
    · rw [hd]
      norm_num
    · have hda' : (0 : ℚ) < (dst.a : ℚ) / 255 := by
        have : 0 < dst.a := Nat.pos_of_ne_zero hd
        positivity
      have hcond : (0 : ℚ) < ((0 : ℕ) : ℚ) / 255 +
          (dst.a : ℚ) / 255 * (1 - ((0 : ℕ) : ℚ) / 255) := by
        push_cast
        linarith
      rw [if_pos hcond]
      have hne : ((0 : ℕ) : ℚ) / 255 + (dst.a : ℚ) / 255 * (1 - ((0 : ℕ) : ℚ) / 255) =
          (dst.a : ℚ) / 255 := by
        push_cast
        ring
      have hsimp : ∀ c d : ℕ, ((c : ℚ) * (((0 : ℕ) : ℚ) / 255) +
          (d : ℚ) * ((dst.a : ℚ) / 255) * (1 - ((0 : ℕ) : ℚ) / 255)) /
          (((0 : ℕ) : ℚ) / 255 + (dst.a : ℚ) / 255 * (1 - ((0 : ℕ) : ℚ) / 255)) =
          (d : ℚ) := by
        intro c d
        rw [hne]
        push_cast
        field_simp
      rw [hsimp src.r dst.r, hsimp src.g dst.g, hsimp src.b dst.b, hne]
      have hout : (dst.a : ℚ) / 255 * 255 = ((dst.a : ℕ) : ℚ) := by
        field_simp
      rw [hout]
      rw [jsRound_natCast, jsRound_natCast, jsRound_natCast, jsRound_natCast]
      rw [clampByte_natCast _ hdr, clampByte_natCast _ hdg,
        clampByte_natCast _ hdb, clampByte_natCast _ hda]

/-- C8 witness: the two identities instantiated at concrete colors. -/
theorem blendPixel_opaque_and_transparent_witness :
    (blendPixel ⟨10, 20, 30, 40⟩ ⟨1, 2, 3, 255⟩ = ⟨1, 2, 3, 255⟩) ∧
    (blendPixel ⟨10, 20, 30, 40⟩ ⟨1, 2, 3, 0⟩ = ⟨10, 20, 30, 40⟩) :=
  ⟨(blendPixel_opaque_and_transparent ⟨10, 20, 30, 40⟩ ⟨1, 2, 3, 255⟩
      (by decide) (by decide) (by decide) (by decide) (by decide) (by decide)
      (by decide)).1 rfl,
   (blendPixel_opaque_and_transparent ⟨10, 20, 30, 40⟩ ⟨1, 2, 3, 0⟩
      (by decide) (by decide) (by decide) (by decide) (by decide) (by decide)
      (by decide)).2 rfl⟩

/-- C10: `moveLayer` is a silent no-op — the whole editor state is
unchanged — whenever the two indices coincide or either lies outside
`[0, layers.length)`. -/
theorem moveLayer_invalid_noop (fromIndex toIndex : ℤ) (s : EditorState)
    (h : fromIndex = toIndex ∨ fromIndex < 0 ∨
      fromIndex ≥ s.layers.length ∨ toIndex < 0 ∨
      toIndex ≥ s.layers.length) :
    moveLayer fromIndex toIndex s = s := by
  unfold moveLayer
  split_ifs with h1 h2 h3 <;> try rfl
  all_goals exfalso
  all_goals push_neg at h2 h3
  all_goals rcases h with h | h | h | h | h
  all_goals first
  | exact h1 h
  | omega

/-- C10 witness: moving a layer onto itself leaves the state intact. -/
theorem moveLayer_invalid_noop_witness :
    moveLayer 2 2 exThreeLayers = exThreeLayers :=
  moveLayer_invalid_noop 2 2 exThreeLayers (Or.inl rfl)

/-- The layer-stack invariant of the data model: at least one layer, and
an active index inside `[0, layers.length)`. -/
def stackInv (s : EditorState) : Prop :=
  1 ≤ s.layers.length ∧ 0 ≤ s.activeLayerIndex ∧
    s.activeLayerIndex < s.layers.length

theorem enumFrom_filter_ne_length (l : List Layer) (idx : ℤ) : ∀ n : ℕ,
    ((List.enumFrom n l).filter fun p => ¬((p.1 : ℤ) = idx)).length =
      if (n : ℤ) ≤ idx ∧ idx < (n : ℤ) + l.length then l.length - 1
      else l.length := by
  induction l with
  | nil =>
      intro n
      simp only [List.enumFrom, List.filter_nil, List.length_nil]
      rw [if_neg]
      omega
  | cons a l ih =>
      intro n
      simp only [List.enumFrom, List.filter_cons, List.length_cons]
      by_cases hn : (n : ℤ) = idx
      · rw [if_neg (by simp [hn]), ih (n + 1), if_neg (by push_cast; omega)]
        rw [if_pos (by push_cast; omega)]
        omega
      · rw [if_pos (by simp [hn]), List.length_cons, ih (n + 1)]
        by_cases hin : ((n : ℤ) + 1 ≤ idx ∧ idx < ((n : ℕ) : ℤ) + 1 + l.length)
        · rw [if_pos (by push_cast at hin ⊢; omega),
            if_pos (by push_cast at hin ⊢; omega)]
          have : 1 ≤ l.length := by
            by_contra hl
            push_cast at hin
            omega
          omega
        · rw [if_neg (by push_cast at hin ⊢; omega),
            if_neg (by push_cast at hin ⊢; omega)]

/-- Length of the `layers.filter((_, i) => i !== index)` result for an
in-range index: exactly one layer disappears. -/
theorem removeLayer_newLayers_length (l : List Layer) (idx : ℤ)
    (h0 : 0 ≤ idx) (h1 : idx < l.length) :
    ((l.enum.filter fun p => ¬((p.1 : ℤ) = idx)).map Prod.snd).length =
      l.length - 1 := by
  rw [List.length_map, List.enum, enumFrom_filter_ne_length l idx 0]
  rw [if_pos (by push_cast; omega)]

/-- C3: `addLayer`, `removeLayer` (with an index denoting a real layer)
and `moveLayer` (with any indices) preserve the layer-stack invariant;
`removeLayer` on a single-layer stack is an identity; and for an
in-range index on a multi-layer stack the new active index follows
exactly the clamp-past-end / decrement-above / keep-otherwise rule. -/
theorem layerStack_mutations_preserve_invariant (s : EditorState)
    (hinv : stackInv s) :
    (∀ newLayer : Layer, stackInv (addLayer newLayer s)) ∧
    (∀ idx : ℤ, 0 ≤ idx → idx < s.layers.length →
      stackInv (removeLayer idx s)) ∧
    (∀ fromIndex toIndex : ℤ, stackInv (moveLayer fromIndex toIndex s)) ∧
    (s.layers.length = 1 → ∀ idx : ℤ, removeLayer idx s = s) ∧
    (∀ idx : ℤ, 0 ≤ idx → idx < s.layers.length → 1 < s.layers.length →
      (removeLayer idx s).activeLayerIndex =
        if s.activeLayerIndex ≥ (s.layers.length : ℤ) - 1 then
          (s.layers.length : ℤ) - 2
        else if s.activeLayerIndex > idx then s.activeLayerIndex - 1
        else s.activeLayerIndex) := by
  obtain ⟨hlen, ha0, ha1⟩ := hinv
  refine ⟨?_, ?_, ?_, ?_, ?_⟩
  · intro newLayer
    unfold addLayer stackInv
    have hle : (s.activeLayerIndex + 1).toNat ≤ s.layers.length := by omega
    simp only [List.length_insertIdx _ _ hle]
    omega
  · intro idx h0 h1
    unfold removeLayer
    by_cases hm : s.layers.length ≤ 1
    · rw [if_pos hm]
      exact ⟨hlen, ha0, ha1⟩
    · rw [if_neg hm]
      simp only [stackInv, removeLayer_newLayers_length s.layers idx h0 h1]
      split_ifs <;> omega
  · intro fromIndex toIndex
    unfold moveLayer
    split_ifs with h1 h2 h3 <;> try exact ⟨hlen, ha0, ha1⟩
    all_goals push_neg at h2 h3
    all_goals
      have he : (s.layers.eraseIdx fromIndex.toNat).length =
          s.layers.length - 1 := by
        rw [List.length_eraseIdx]
        rw [if_pos (by omega)]
    all_goals
      have hi : ((s.layers.eraseIdx fromIndex.toNat).insertIdx toIndex.toNat
          (s.layers.getD fromIndex.toNat ⟨"", "", [], true⟩)).length =
          s.layers.length := by
        rw [List.length_insertIdx _ _ (by omega), he]
        omega
    all_goals simp only [stackInv, hi]
    all_goals omega
  · intro hone idx
    unfold removeLayer
    rw [if_pos (by omega)]
  · intro idx h0 h1 hmany
    unfold removeLayer
    rw [if_neg (by omega)]
    simp only [removeLayer_newLayers_length s.layers idx h0 h1]
    split_ifs <;> push_cast at * <;> omega

/-- C3 witness: the invariant facts at a concrete three-layer state. -/
theorem layerStack_mutations_preserve_invariant_witness :
    stackInv (addLayer ⟨"d", "Layer 4", [], true⟩ exThreeLayers) ∧
    stackInv (removeLayer 0 exThreeLayers) ∧
    stackInv (moveLayer 0 2 exThreeLayers) ∧
    (removeLayer 0 exThreeLayers).activeLayerIndex = 1 := by
  have hinv : stackInv exThreeLayers := by
    constructor
    · decide
    · constructor <;> decide
  have h := layerStack_mutations_preserve_invariant exThreeLayers hinv
  refine ⟨h.1 _, h.2.1 0 (by decide) (by decide), h.2.2.1 0 2, ?_⟩
  have h5 := h.2.2.2.2 0 (by decide) (by decide) (by decide)
  rw [h5]
  decide

theorem getD_in_range (L : List Layer) (fn : ℕ) (d : Layer)
    (hf : fn < L.length) : L.getD fn d = L[fn] := by
  rw [List.getD_eq_getElem?_getD, List.getElem?_eq_getElem hf, Option.getD_some]

theorem moveLen (L : List Layer) (fn tn : ℕ) (x : Layer)
    (hf : fn < L.length) (ht : tn < L.length) :
    ((L.eraseIdx fn).insertIdx tn x).length = L.length := by
  have he : (L.eraseIdx fn).length = L.length - 1 := by
    rw [List.length_eraseIdx, if_pos hf]
  rw [List.length_insertIdx _ _ (by omega), he]
  omega

theorem moveGet_self (L : List Layer) (fn tn : ℕ) (d : Layer)
    (hf : fn < L.length) (ht : tn < L.length) :
    ((L.eraseIdx fn).insertIdx tn (L.getD fn d))[tn]? = L[fn]? := by
  have hlen := moveLen L fn tn (L.getD fn d) hf ht
  rw [List.getElem?_eq_getElem (by omega), List.getElem?_eq_getElem hf]
  rw [List.getElem_insertIdx_self _ _ _ (by rw [List.length_eraseIdx, if_pos hf]; omega)]
  rw [getD_in_range L fn d hf]

theorem moveGet_down (L : List Layer) (fn tn an : ℕ) (d : Layer)
    (hf : fn < L.length) (ht : tn < L.length) (h1 : fn < an) (h2 : an ≤ tn)
    (han : an < L.length) :
    ((L.eraseIdx fn).insertIdx tn (L.getD fn d))[an - 1]? = L[an]? := by
  have hlen := moveLen L fn tn (L.getD fn d) hf ht
  have herase : (L.eraseIdx fn).length = L.length - 1 := by
    rw [List.length_eraseIdx, if_pos hf]
  rw [List.getElem?_eq_getElem (by omega)]
  rw [List.getElem_insertIdx_of_lt _ _ _ _ (by omega) (by omega)]
  rw [List.getElem_eraseIdx_of_ge _ _ _ (by omega) (by omega)]
  rw [← List.getElem?_eq_getElem (by omega : an - 1 + 1 < L.length)]
  rw [show an - 1 + 1 = an from by omega]

theorem moveGet_up (L : List Layer) (fn tn an : ℕ) (d : Layer)
    (hf : fn < L.length) (ht : tn < L.length) (h1 : an < fn) (h2 : tn ≤ an) :
    ((L.eraseIdx fn).insertIdx tn (L.getD fn d))[an + 1]? = L[an]? := by
  have hlen := moveLen L fn tn (L.getD fn d) hf ht
  have herase : (L.eraseIdx fn).length = L.length - 1 := by
    rw [List.length_eraseIdx, if_pos hf]
  rw [show an + 1 = tn + (an - tn) + 1 from by omega]
  rw [List.getElem?_eq_getElem (by omega)]
  rw [List.getElem_insertIdx_add_succ _ _ _ _ (by omega)]
  rw [← List.getElem?_eq_getElem
    (by omega : tn + (an - tn) < (L.eraseIdx fn).length)]
  rw [show tn + (an - tn) = an from by omega]
  rw [List.getElem?_eq_getElem (by omega : an < (L.eraseIdx fn).length)]
  rw [List.getElem_eraseIdx_of_lt _ _ _ (by omega) (by omega)]
  rw [← List.getElem?_eq_getElem (by omega : an < L.length)]

theorem moveGet_keep_low (L : List Layer) (fn tn an : ℕ) (d : Layer)
    (hf : fn < L.length) (ht : tn < L.length) (h1 : an < fn) (h2 : an < tn) :
    ((L.eraseIdx fn).insertIdx tn (L.getD fn d))[an]? = L[an]? := by
  have hlen := moveLen L fn tn (L.getD fn d) hf ht
  have herase : (L.eraseIdx fn).length = L.length - 1 := by
    rw [List.length_eraseIdx, if_pos hf]
  rw [List.getElem?_eq_getElem (by omega), List.getElem?_eq_getElem (by omega)]
  rw [List.getElem_insertIdx_of_lt _ _ _ _ (by omega) (by omega)]
  rw [List.getElem_eraseIdx_of_lt _ _ _ (by omega) (by omega)]

theorem moveGet_keep_high (L : List Layer) (fn tn an : ℕ) (d : Layer)
    (hf : fn < L.length) (ht : tn < L.length) (h1 : fn < an) (h2 : tn < an)
    (han : an < L.length) :
    ((L.eraseIdx fn).insertIdx tn (L.getD fn d))[an]? = L[an]? := by
  have hlen := moveLen L fn tn (L.getD fn d) hf ht
  have herase : (L.eraseIdx fn).length = L.length - 1 := by
    rw [List.length_eraseIdx, if_pos hf]
  nth_rewrite 1 [show an = tn + (an - tn - 1) + 1 from by omega]
  rw [List.getElem?_eq_getElem
    (by omega : tn + (an - tn - 1) + 1 <
      ((L.eraseIdx fn).insertIdx tn (L.getD fn d)).length)]
  rw [List.getElem_insertIdx_add_succ _ _ _ _ (by omega)]
  rw [← List.getElem?_eq_getElem
    (by omega : tn + (an - tn - 1) < (L.eraseIdx fn).length)]
  rw [show tn + (an - tn - 1) = an - 1 from by omega]
  rw [List.getElem?_eq_getElem (by omega : an - 1 < (L.eraseIdx fn).length)]
  rw [List.getElem_eraseIdx_of_ge _ _ _ (by omega) (by omega)]
  rw [← List.getElem?_eq_getElem (by omega : an - 1 + 1 < L.length)]
  rw [show an - 1 + 1 = an from by omega]

/-- C5: for distinct in-range indices, `moveLayer` re-derives the active
index so that it denotes the very layer object that was active before
the move, in every configuration (moving the active layer itself, or a
move straddling the active slot from either side). -/
theorem moveLayer_active_layer_preserved (s : EditorState) (f t : ℤ)
    (hf0 : 0 ≤ f) (hf1 : f < s.layers.length)
    (ht0 : 0 ≤ t) (ht1 : t < s.layers.length) (hne : f ≠ t)
    (ha0 : 0 ≤ s.activeLayerIndex)
    (ha1 : s.activeLayerIndex < s.layers.length) :
    (moveLayer f t s).layers[(moveLayer f t s).activeLayerIndex.toNat]? =
      s.layers[s.activeLayerIndex.toNat]? := by
  unfold moveLayer
  rw [if_neg hne, if_neg (by omega), if_neg (by omega)]
  simp only
  split_ifs with hb1 hb2 hb3
  · rw [hb1]
    exact moveGet_self s.layers f.toNat t.toNat _ (by omega) (by omega)
  · have hr := moveGet_down s.layers f.toNat t.toNat s.activeLayerIndex.toNat
      ⟨"", "", [], true⟩ (by omega) (by omega) (by omega) (by omega) (by omega)
    rw [← hr]
    congr 1
    omega
  · have hr := moveGet_up s.layers f.toNat t.toNat s.activeLayerIndex.toNat
      ⟨"", "", [], true⟩ (by omega) (by omega) (by omega) (by omega)
    rw [← hr]
    congr 1
    omega
  · push_neg at hb2 hb3
    by_cases hlow : s.activeLayerIndex < f
    · exact moveGet_keep_low s.layers f.toNat t.toNat s.activeLayerIndex.toNat
        ⟨"", "", [], true⟩ (by omega) (by omega) (by omega) (by omega)
    · exact moveGet_keep_high s.layers f.toNat t.toNat s.activeLayerIndex.toNat
        ⟨"", "", [], true⟩ (by omega) (by omega) (by omega) (by omega) (by omega)

/-- C5 witness: moving the bottom layer above the active top layer keeps
the same layer active. -/
theorem moveLayer_active_layer_preserved_witness :
    (moveLayer 0 2 exThreeLayers).layers[
        (moveLayer 0 2 exThreeLayers).activeLayerIndex.toNat]? =
      exThreeLayers.layers[exThreeLayers.activeLayerIndex.toNat]? :=
  moveLayer_active_layer_preserved exThreeLayers 0 2 (by decide) (by decide)
    (by decide) (by decide) (by decide) (by decide) (by decide)

/-- Everything of a layer except its pixel buffer. -/
def layerKey (l : Layer) : String × String × Bool := (l.id, l.name, l.visible)

theorem restoreLayerStates_nil (layers : List Layer) :
    restoreLayerStates [] layers = layers := rfl

theorem restoreLayerStates_cons (p : String × Img) (rest : List (String × Img))
    (layers : List Layer) :
    restoreLayerStates (p :: rest) layers =
      restoreLayerStates rest (putOnFirstMatch layers p.1 p.2) := by
  unfold restoreLayerStates
  rw [List.foldl_cons]

theorem putOnFirstMatch_key (ls : List Layer) (i : String) (img : Img) :
    (putOnFirstMatch ls i img).map layerKey = ls.map layerKey := by
  induction ls with
  | nil => rfl
  | cons l rest ih =>
      unfold putOnFirstMatch
      by_cases h : l.id = i
      · rw [if_pos h]
        simp [layerKey]
      · rw [if_neg h]
        simp only [List.map_cons, ih]

theorem restoreLayerStates_key (states : List (String × Img)) :
    ∀ layers : List Layer,
      (restoreLayerStates states layers).map layerKey = layers.map layerKey := by
  induction states with
  | nil => intro layers; rfl
  | cons p rest ih =>
      intro layers
      rw [restoreLayerStates_cons, ih, putOnFirstMatch_key]

theorem restoreLayerStates_skip (x : Layer) :
    ∀ (states : List (String × Img)) (layers : List Layer),
      (∀ p ∈ states, p.1 ≠ x.id) →
      restoreLayerStates states (x :: layers) =
        x :: restoreLayerStates states layers := by
  intro states
  induction states with
  | nil => intro layers _; rfl
  | cons p rest ih =>
      intro layers hne
      rw [restoreLayerStates_cons, restoreLayerStates_cons]
      have hpx : ¬ (x.id = p.1) :=
        fun hc => (hne p (List.mem_cons_self p rest)) hc.symm
      have hx : putOnFirstMatch (x :: layers) p.1 p.2 =
          x :: putOnFirstMatch layers p.1 p.2 := by
        simp [putOnFirstMatch, hpx]
      rw [hx]
      exact ih (putOnFirstMatch layers p.1 p.2)
        (fun q hq => hne q (List.mem_cons_of_mem _ hq))

/-- Restoring the snapshot `(id, img)` pairs of a layer list `L` into any
layer list with the same ids, names and visibility flags (in order)
reconstructs `L` exactly, provided the ids are distinct. -/
theorem restoreLayerStates_roundtrip :
    ∀ L M : List Layer, (L.map Layer.id).Nodup →
      M.map layerKey = L.map layerKey →
      restoreLayerStates (L.map fun l => (l.id, l.img)) M = L := by
  intro L
  induction L with
  | nil =>
      intro M _ hkey
      simp only [List.map_nil, List.map_eq_nil_iff] at hkey
      rw [hkey]
      rfl
  | cons l L ih =>
      intro M hnd hkey
      cases M with
      | nil => simp at hkey
      | cons m M' =>
          simp only [List.map_cons, List.cons_eq_cons] at hkey
          obtain ⟨hk, hkey'⟩ := hkey
          simp only [List.map_cons, List.nodup_cons] at hnd
          obtain ⟨hid, hnd'⟩ := hnd
          rw [List.map_cons, restoreLayerStates_cons]
          have hm : putOnFirstMatch (m :: M') l.id l.img =
              { m with img := l.img } :: M' := by
            unfold putOnFirstMatch
            rw [if_pos]
            have := congrArg Prod.fst hk
            simpa [layerKey] using this
          have hml : { m with img := l.img } = l := by
            obtain ⟨mid, mname, mimg, mvis⟩ := m
            obtain ⟨lid, lname, limg, lvis⟩ := l
            simp only [layerKey, Prod.mk.injEq] at hk
            simp [hk.1, hk.2.1, hk.2.2]
          rw [hm, hml]
          rw [restoreLayerStates_skip l (L.map fun a => (a.id, a.img)) M'
            (by
              intro p hp
              simp only [List.mem_map] at hp
              obtain ⟨a, ha, hpa⟩ := hp
              rw [← hpa]
              intro hc
              exact hid (hc ▸ List.mem_map_of_mem Layer.id ha))]
          rw [ih M' hnd' hkey']

/-- `undo` unfolded on a state passing both guards. -/
theorem undo_eq (s : EditorState) (h1 : s.undoStack.isEmpty = false)
    (h2 : s.layers.isEmpty = false) :
    undo s = { s with
      redoStack := s.redoStack ++ [currentSnapshot s]
      undoStack := s.undoStack.dropLast
      layers := restoreLayerStates
        ((s.undoStack.getLast?.getD ⟨[], 0⟩).layerStates) s.layers
      activeLayerIndex :=
        (s.undoStack.getLast?.getD ⟨[], 0⟩).activeLayerIndex } := by
  unfold undo
  rw [h1, h2]
  rfl

/-- `redo` unfolded on a state passing both guards. -/
theorem redo_eq (s : EditorState) (h1 : s.redoStack.isEmpty = false)
    (h2 : s.layers.isEmpty = false) :
    redo s = { s with
      undoStack := s.undoStack ++ [currentSnapshot s]
      redoStack := s.redoStack.dropLast
      layers := restoreLayerStates
        ((s.redoStack.getLast?.getD ⟨[], 0⟩).layerStates) s.layers
      activeLayerIndex :=
        (s.redoStack.getLast?.getD ⟨[], 0⟩).activeLayerIndex } := by
  unfold redo
  rw [h1, h2]
  rfl

/-- C2: with pairwise-distinct layer ids, performing `undo` and then
`redo` on a state with a non-empty undo stack restores the exact
pre-undo state: the layer list (every id, name, visibility flag and
pixel buffer, bit for bit) and the active layer index. -/
theorem undo_redo_roundtrip (s : EditorState)
    (hnd : (s.layers.map Layer.id).Nodup) (hu : s.undoStack ≠ []) :
    (redo (undo s)).layers = s.layers ∧
    (redo (undo s)).activeLayerIndex = s.activeLayerIndex := by
  by_cases hL : s.layers.isEmpty
  · have hundo : undo s = s := by
      unfold undo
      rw [hL, Bool.or_true]
      rfl
    have hredo : redo s = s := by
      unfold redo
      rw [hL, Bool.or_true]
      rfl
    rw [hundo, hredo]
    exact ⟨rfl, rfl⟩
  · rw [Bool.not_eq_true] at hL
    have hu' : s.undoStack.isEmpty = false := by
      cases h : s.undoStack with
      | nil => exact absurd h hu
      | cons a l => rfl
    rw [undo_eq s hu' hL]
    have hkey₁ : (restoreLayerStates
        ((s.undoStack.getLast?.getD ⟨[], 0⟩).layerStates) s.layers).map
          layerKey = s.layers.map layerKey := restoreLayerStates_key _ _
    have hL₁ : (restoreLayerStates
        ((s.undoStack.getLast?.getD ⟨[], 0⟩).layerStates)
          s.layers).isEmpty = false := by
      cases hres : restoreLayerStates
          ((s.undoStack.getLast?.getD ⟨[], 0⟩).layerStates) s.layers with
      | nil =>
          rw [hres] at hkey₁
          have hemp : s.layers = [] := by
            have h2 := hkey₁.symm
            simpa [List.map_eq_nil_iff] using h2
          rw [hemp] at hL
          simp at hL
      | cons a l => rfl
    rw [redo_eq _ (by
        simp only []
        cases h : s.redoStack ++ [currentSnapshot s] with
        | nil => simp at h
        | cons a l => rfl)
      (by simpa using hL₁)]
    simp only [List.getLast?_append]
    constructor
    · simp only [List.getLast?_singleton, Option.getD_some]
      exact restoreLayerStates_roundtrip s.layers _ hnd hkey₁
    · simp only [List.getLast?_singleton, Option.getD_some]
      rfl

/-- C2 witness: one painted layer with one undo entry round-trips. -/
theorem undo_redo_roundtrip_witness :
    (redo (undo exHistoryState)).layers = exHistoryState.layers ∧
    (redo (undo exHistoryState)).activeLayerIndex =
      exHistoryState.activeLayerIndex :=
  undo_redo_roundtrip exHistoryState (by decide) (by decide)

theorem activeImg?_layers_ne_nil {s : EditorState} {img : Img}
    (h : activeImg? s = some img) : s.layers.isEmpty = false := by
  cases hL : s.layers with
  | nil =>
      exfalso
      unfold activeImg? at h
      rw [hL] at h
      split_ifs at h
      all_goals simp_all
  | cons a l => rfl

/-- C1 counterexample: a 1×1 canvas whose single pixel already equals
the paint color.  The fill leaves the buffer unchanged, but the undo
stack grows from empty to one entry — `saveState()` runs before the
seed-color check. -/
theorem floodFill_noop_still_pushes_history :
    (floodFill 1 1 redC 0 0 exFillState).layers = exFillState.layers ∧
    exFillState.undoStack = [] ∧
    ¬((floodFill 1 1 redC 0 0 exFillState).undoStack =
        exFillState.undoStack) := by
  refine ⟨by decide, rfl, by decide⟩

/-- C1 (amended): for an in-bounds seed whose pixel already equals the
paint color exactly, `floodFill` leaves every layer (hence the active
layer's buffer) untouched, but still pushes one history snapshot onto
the undo stack and clears the redo stack: the result is exactly
`saveState` of the original state. -/
theorem floodFill_seed_match_is_saveState (W H : ℕ) (fillColor : Color)
    (startX startY : ℤ) (s : EditorState) (img : Img)
    (himg : activeImg? s = some img)
    (hx0 : 0 ≤ startX) (hx1 : startX < (W : ℤ))
    (hy0 : 0 ≤ startY) (hy1 : startY < (H : ℤ))
    (hmatch : colorsMatch (getPixelColor img W startX startY) fillColor 0
      = true) :
    floodFill W H fillColor startX startY s = saveState s ∧
    (saveState s).layers = s.layers ∧
    (saveState s).undoStack.length =
      min (s.undoStack.length + 1) MAX_UNDO_STEPS ∧
    (saveState s).redoStack = [] := by
  have hL : s.layers.isEmpty = false := activeImg?_layers_ne_nil himg
  have hsave : saveState s = { s with
      undoStack :=
        (s.undoStack.drop (s.undoStack.length - (MAX_UNDO_STEPS - 1))) ++
          [currentSnapshot s]
      redoStack := [] } := by
    unfold saveState
    rw [hL]
    rfl
  refine ⟨?_, ?_, ?_, ?_⟩
  · unfold floodFill
    rw [himg]
    simp only
    rw [if_neg (by omega), if_pos hmatch]
  · rw [hsave]
  · rw [hsave]
    simp only [List.length_append, List.length_drop, List.length_singleton]
    unfold MAX_UNDO_STEPS
    omega
  · rw [hsave]

/-- C1 (amended) witness: the concrete 1×1 no-op fill equals
`saveState`. -/
theorem floodFill_seed_match_is_saveState_witness :
    floodFill 1 1 redC 0 0 exFillState = saveState exFillState ∧
    (saveState exFillState).layers = exFillState.layers ∧
    (saveState exFillState).undoStack.length =
      min (exFillState.undoStack.length + 1) MAX_UNDO_STEPS ∧
    (saveState exFillState).redoStack = [] :=
  floodFill_seed_match_is_saveState 1 1 redC 0 0 exFillState [redC]
    (by decide) (by decide) (by decide) (by decide) (by decide) (by decide)

theorem boxF_card (W H : ℕ) : (boxF W H).card = W * H := by
  unfold boxF
  rw [Finset.card_product, Int.card_Icc, Int.card_Icc]
  simp only [sub_zero]
  rw [show ((W : ℤ) - 1 + 1) = (W : ℤ) from by ring,
    show ((H : ℤ) - 1 + 1) = (H : ℤ) from by ring,
    Int.toNat_natCast, Int.toNat_natCast]

theorem boxF_sdiff_insert_card_lt (W H : ℕ) (x y : ℤ)
    (visited : Finset (ℤ × ℤ)) (hvis : (x, y) ∉ visited)
    (hx0 : 0 ≤ x) (hx1 : x < (W : ℤ)) (hy0 : 0 ≤ y) (hy1 : y < (H : ℤ)) :
    (boxF W H \ insert (x, y) visited).card < (boxF W H \ visited).card := by
  have hxy : (x, y) ∈ boxF W H \ visited := by
    rw [Finset.mem_sdiff]
    refine ⟨?_, hvis⟩
    simp only [boxF, Finset.mem_product, Finset.mem_Icc]
    exact ⟨⟨hx0, by omega⟩, hy0, by omega⟩
  apply Finset.card_lt_card
  rw [Finset.ssubset_iff_of_subset
    (Finset.sdiff_subset_sdiff (le_refl _) (Finset.subset_insert _ _))]
  exact ⟨(x, y), hxy, by simp⟩

/-- The fuel-indexed loop computes the total loop's result whenever the
fuel exceeds the decreasing measure `5·|box \ visited| + |stack|`. -/
theorem floodLoopFuel_adequate (W H : ℕ) (targetColor fillColor : Color) :
    ∀ (fuel : ℕ) (stack : List (ℤ × ℤ)) (visited : Finset (ℤ × ℤ))
      (img : Img),
      5 * ((boxF W H) \ visited).card + stack.length < fuel →
      floodLoopFuel W H targetColor fillColor fuel stack visited img =
        some (floodLoop W H targetColor fillColor stack visited img) := by
  intro fuel
  induction fuel using Nat.strong_induction_on with
  | _ fuel ih =>
      intro stack visited img hm
      cases fuel with
      | zero => omega
      | succ n =>
          cases stack with
          | nil =>
              unfold floodLoopFuel floodLoop
              rfl
          | cons xy rest =>
              obtain ⟨x, y⟩ := xy
              simp only [List.length_cons] at hm
              unfold floodLoopFuel floodLoop
              split_ifs with h1 h2 h3
              all_goals try exact ih n (by omega) rest visited img (by omega)
              push_neg at h2
              have hcard := boxF_sdiff_insert_card_lt W H x y visited h1
                h2.1 (by omega) h2.2.2.1 (by omega)
              apply ih n (by omega)
              simp only [List.length_cons]
              omega

/-- C9: on any canvas with `1 ≤ W,H ≤ 2048` and any in-bounds seed, the
iterative stack-based flood-fill loop halts: running the literal
while-loop for at most `5·W·H + 2` iterations empties the work stack and
returns the same buffer as the loop's total (well-founded) definition —
each coordinate enters the visited set at most once, so the loop cannot
run forever. -/
theorem floodFill_loop_terminates (W H : ℕ)
    (_hW1 : 1 ≤ W) (_hW2 : W ≤ 2048) (_hH1 : 1 ≤ H) (_hH2 : H ≤ 2048)
    (targetColor fillColor : Color) (startX startY : ℤ)
    (_hx0 : 0 ≤ startX) (_hx1 : startX < (W : ℤ))
    (_hy0 : 0 ≤ startY) (_hy1 : startY < (H : ℤ)) (img : Img) :
    floodLoopFuel W H targetColor fillColor (5 * (W * H) + 2)
        [(startX, startY)] ∅ img =
      some (floodLoop W H targetColor fillColor [(startX, startY)] ∅ img) := by
  apply floodLoopFuel_adequate
  rw [Finset.sdiff_empty, boxF_card]
  simp only [List.length_singleton]
  omega

/-- C9 witness: the loop of a 2×2 fill from (0,0) halts within 22
iterations. -/
theorem floodFill_loop_terminates_witness :
    floodLoopFuel 2 2 clearColor redC (5 * (2 * 2) + 2) [(0, 0)] ∅
        [clearColor, clearColor, clearColor, clearColor] =
      some (floodLoop 2 2 clearColor redC [(0, 0)] ∅
        [clearColor, clearColor, clearColor, clearColor]) :=
  floodFill_loop_terminates 2 2 (by decide) (by decide) (by decide)
    (by decide) clearColor redC 0 0 (by decide) (by decide) (by decide)
    (by decide) [clearColor, clearColor, clearColor, clearColor]

theorem sourceOver_opaque_src (d : PMColor) (c : Color) (h : c.a = 255) :
    sourceOver d (toPM c) = toPM c := by
  unfold sourceOver toPM
  rw [h]
  norm_num

/-- C4 counterexample: a fully transparent visible top layer over an
opaque red bottom layer.  `drawImage` compositing shows the red bottom
layer, so the displayed pixel does not equal the topmost visible
layer's (transparent) value — compositing is source-over alpha
blending, not an overwrite blit. -/
theorem composite_not_overwrite :
    topmostVisible [exBottomLayer, exTopLayer] = some exTopLayer ∧
    ¬(compositePixel 1 [exBottomLayer, exTopLayer] 0 0 =
        toPM (getPixelColor exTopLayer.img 1 0 0)) ∧
    compositePixel 1 [exBottomLayer, exTopLayer] 0 0 = toPM redC := by
  refine ⟨by decide, ?_, ?_⟩
  · intro hc
    simp only [compositePixel, exBottomLayer, exTopLayer, List.foldl_cons,
      List.foldl_nil, clearPixel, sourceOver, toPM, getPixelColor, redC,
      clearColor, if_pos] at hc
    norm_num [PMColor.mk.injEq] at hc
  · simp only [compositePixel, exBottomLayer, exTopLayer, List.foldl_cons,
      List.foldl_nil, clearPixel, sourceOver, toPM, getPixelColor, redC,
      clearColor, if_pos]
    norm_num [PMColor.mk.injEq]

/-- C4 (amended): compositing clears the display and draws each visible
layer back-to-front with source-over alpha compositing; hence at every
pixel where the topmost visible layer is fully opaque the displayed
value equals that layer's value (while transparent upper-layer pixels
let lower layers show through, as the counterexample demonstrates). -/
theorem composite_topmost_opaque (W : ℕ) (layers : List Layer) (x y : ℤ)
    (l : Layer) (htop : topmostVisible layers = some l)
    (hopq : (getPixelColor l.img W x y).a = 255) :
    compositePixel W layers x y = toPM (getPixelColor l.img W x y) := by
  induction layers using List.reverseRecOn with
  | nil => simp [topmostVisible] at htop
  | append_singleton L z ihL =>
      unfold compositePixel
      rw [List.foldl_append, List.foldl_cons, List.foldl_nil]
      by_cases hv : z.visible
      · have hz : z = l := by
          unfold topmostVisible at htop
          rw [List.filter_append] at htop
          have hfz : List.filter (fun a => a.visible) [z] = [z] := by
            simp [hv]
          rw [hfz, List.getLast?_concat] at htop
          exact Option.some.inj htop
        rw [if_pos hv, hz]
        exact sourceOver_opaque_src _ _ hopq
      · have hfz : List.filter (fun a => a.visible) [z] = [] := by
          simp [hv]
        rw [if_neg hv]
        apply ihL
        unfold topmostVisible at htop ⊢
        rw [List.filter_append, hfz, List.append_nil] at htop
        exact htop

/-- C4 (amended) witness: a single opaque layer displays as itself. -/
theorem composite_topmost_opaque_witness :
    compositePixel 1 [exBottomLayer] 0 0 =
      toPM (getPixelColor exBottomLayer.img 1 0 0) :=
  composite_topmost_opaque 1 [exBottomLayer] 0 0 exBottomLayer (by decide)
    (by decide)

theorem saveState_lassoPoints (s : EditorState) :
    (saveState s).lassoPoints = s.lassoPoints := by
  unfold saveState
  split_ifs <;> rfl

theorem setActiveImg_lassoPoints (s : EditorState) (img : Img) :
    (setActiveImg s img).lassoPoints = s.lassoPoints := by
  unfold setActiveImg
  split
  · split <;> rfl
  · rfl

/-- C7 counterexample: after `moveLassoToFloating` on a finalized
single-pixel lasso, the mask and bounds are cleared but the lasso's
point list is NOT cleared — the source deliberately keeps the points
for reference. -/
theorem moveLassoToFloating_keeps_points :
    (moveLassoToFloating 2 exLassoState).lassoPoints =
      [(0, 0), (2, 0), (0, 2)] ∧
    ¬((moveLassoToFloating 2 exLassoState).lassoPoints = []) ∧
    (moveLassoToFloating 2 exLassoState).lassoMask = none ∧
    (moveLassoToFloating 2 exLassoState).lassoBounds = none := by
  refine ⟨by decide, by decide, by decide, by decide⟩

/-- C7 (amended): with an active layer and a finalized lasso (mask,
bounds and extracted pixels all present), `moveLassoToFloating` clears
the lasso's mask, bounds and extracted image data and creates the
floating selection at the bounding box's original top-left from the
pre-cut extracted pixels — but it keeps the lasso's point list. -/
theorem moveLassoToFloating_clears_mask_bounds (W : ℕ) (s : EditorState)
    (img : Img) (mask : Mask) (b : LassoBounds) (fid : FloatImg)
    (himg : activeImg? s = some img) (hmask : s.lassoMask = some mask)
    (hb : s.lassoBounds = some b) (hfid : s.lassoImageData = some fid) :
    (moveLassoToFloating W s).lassoMask = none ∧
    (moveLassoToFloating W s).lassoBounds = none ∧
    (moveLassoToFloating W s).lassoImageData = none ∧
    (moveLassoToFloating W s).lassoPoints = s.lassoPoints ∧
    (moveLassoToFloating W s).floatingSelection =
      some ⟨⟨fid.width, fid.height, fid.data⟩, b.minX, b.minY⟩ := by
  unfold moveLassoToFloating
  rw [himg, hmask, hb, hfid]
  refine ⟨rfl, rfl, rfl, ?_, rfl⟩
  show (setActiveImg (saveState s) (clearMasked W mask b img)).lassoPoints =
    s.lassoPoints
  rw [setActiveImg_lassoPoints, saveState_lassoPoints]

/-- C7 (amended) witness: the concrete lasso state. -/
theorem moveLassoToFloating_clears_mask_bounds_witness :
    (moveLassoToFloating 2 exLassoState).lassoMask = none ∧
    (moveLassoToFloating 2 exLassoState).lassoBounds = none ∧
    (moveLassoToFloating 2 exLassoState).lassoImageData = none ∧
    (moveLassoToFloating 2 exLassoState).lassoPoints =
      exLassoState.lassoPoints ∧
    (moveLassoToFloating 2 exLassoState).floatingSelection =
      some ⟨⟨1, 1, [redC]⟩, 0, 0⟩ :=
  moveLassoToFloating_clears_mask_bounds 2 exLassoState [redC, redC, redC, redC]
    [[true, false], [false, false]] ⟨0, 0, 0, 0⟩ ⟨1, 1, [redC]⟩
    (by decide) rfl rfl rfl

/-- The exact crossing test coincides with the source's formula
`x < (xj - xi) * (y - yi) / (yj - yi) + xi` read with exact rational
division, whenever the denominator is nonzero (the only case the
even-odd guard lets through). -/
theorem crossingLt_iff_ratFormula (x y xi yi xj yj : ℤ) (h : yi ≠ yj) :
    crossingLt x y xi yi xj yj = true ↔
      (x : ℚ) < ((xj : ℚ) - xi) * ((y : ℚ) - yi) / ((yj : ℚ) - yi) + xi := by
  unfold crossingLt
  have hd : ((yj : ℚ) - yi) ≠ 0 := by
    intro hc
    apply h
    have h2 : (yi : ℚ) = yj := by linarith
    exact_mod_cast h2
  by_cases hpos : 0 < yj - yi
  · rw [if_pos hpos]
    have hdq : (0 : ℚ) < (yj : ℚ) - yi := by exact_mod_cast hpos
    rw [← sub_lt_iff_lt_add, lt_div_iff₀ hdq]
    constructor
    · intro hlt
      have : (x - xi) * (yj - yi) < (xj - xi) * (y - yi) := by
        exact_mod_cast of_decide_eq_true hlt
      exact_mod_cast this
    · intro hlt
      apply decide_eq_true
      have : ((x : ℚ) - xi) * ((yj : ℚ) - yi) < ((xj : ℚ) - xi) * ((y : ℚ) - yi) := hlt
      exact_mod_cast this
  · rw [if_neg hpos]
    have hneg : yj - yi < 0 := by
      rcases lt_trichotomy (yj - yi) 0 with hc | hc | hc
      · exact hc
      · exfalso
        apply h
        omega
      · exact absurd hc hpos
    have hdq : ((yj : ℚ) - yi) < 0 := by exact_mod_cast hneg
    rw [← sub_lt_iff_lt_add, lt_div_iff_of_neg hdq]
    constructor
    · intro hlt
      have : (xj - xi) * (y - yi) < (x - xi) * (yj - yi) := by
        exact_mod_cast of_decide_eq_true hlt
      exact_mod_cast this
    · intro hlt
      apply decide_eq_true
      have : ((xj : ℚ) - xi) * ((y : ℚ) - yi) < ((x : ℚ) - xi) * ((yj : ℚ) - yi) := hlt
      exact_mod_cast this

/-- C6: the lasso mask of the triangle polygon (0,0)-(10,0)-(0,10) on a
16×16 canvas has the unclamped bounding box (0,0)-(10,10), includes the
interior pixel (1,1) and excludes (9,9), which lies inside the bounding
box but outside the polygon under the even-odd ray-casting rule. -/
theorem lassoMask_triangle :
    (createLassoMask 16 16 [(0, 0), (10, 0), (0, 10)]).map Prod.fst =
      some ⟨0, 0, 10, 10⟩ ∧
    (createLassoMask 16 16 [(0, 0), (10, 0), (0, 10)]).map
      (fun p => maskGet p.2 1 1) = some true ∧
    (createLassoMask 16 16 [(0, 0), (10, 0), (0, 10)]).map
      (fun p => maskGet p.2 9 9) = some false := by
  decide

end AssetEditor
